import Mathlib

/-!
# VideoPlayer (src/Components/videoPlayer.jsx): a model of the component and its properties

The React component `VideoPlayer` is embedded as explicit state passing:

* the values of `useState` and the two refs form the record `State`;
* every handler of the component is a function on `State`;
* the two `<video>` elements are records holding the properties the component
  reads and writes, and the list of registered event listeners.

JavaScript numbers are IEEE doubles.  A finite double is held as its exact rational value,
and every arithmetic operation rounds its exact result to the nearest double (`roundDouble`).
The negative zero is identified with zero.
-/

namespace VideoPlayer

/-! ## JavaScript numbers and strings -/

/-- A JavaScript number: not-a-number, an infinity, or a finite value.  A finite number is
held as the exact rational value of the double. -/
inductive JSNum where
  | nan
  | posInf
  | negInf
  | fin (q : ℚ)
deriving DecidableEq

/-- An integral JavaScript number, as produced by `Math.floor`: an integer or one of the
three non-finite numbers. -/
inductive JSInt where
  | nan
  | posInf
  | negInf
  | int (z : ℤ)
deriving DecidableEq

/-- Rounding to the nearest integer, a tie going to the even one. -/
def roundHalfEven (q : ℚ) : ℤ :=
  if q - ⌊q⌋ < 1 / 2 then ⌊q⌋
  else if 1 / 2 < q - ⌊q⌋ then ⌊q⌋ + 1
  else if ⌊q⌋ % 2 = 0 then ⌊q⌋ else ⌊q⌋ + 1

/-- The distance between neighbouring doubles around a positive `q`: `2 ^ (e - 52)` where
`2 ^ e ≤ q < 2 ^ (e + 1)`, with `e` not below `-1022` (the subnormal range). -/
def ulpOf (q : ℚ) : ℚ :=
  if 1 ≤ q then
    if Nat.log2 ⌊q⌋₊ ≤ 52 then 1 / ((2 ^ (52 - Nat.log2 ⌊q⌋₊) : ℕ) : ℚ)
    else ((2 ^ (Nat.log2 ⌊q⌋₊ - 52) : ℕ) : ℚ)
  else 1 / ((2 ^ (52 + min (Nat.log2 (⌈1 / q⌉₊ - 1) + 1) 1022) : ℕ) : ℚ)

/-- The double nearest to a positive `q` (a tie going to the even significand); `Infinity`
when that is `2 ^ 1024` or more. -/
def roundDoublePos (q : ℚ) : JSNum :=
  if (2 : ℚ) ^ 1024 ≤ (roundHalfEven (q / ulpOf q) : ℚ) * ulpOf q then .posInf
  else .fin ((roundHalfEven (q / ulpOf q) : ℚ) * ulpOf q)

/-- The unary minus. -/
def JSNum.neg : JSNum → JSNum
  | .nan => .nan
  | .posInf => .negInf
  | .negInf => .posInf
  | .fin q => .fin (-q)

/-- The double that an exact value `q` is rounded to by an arithmetic operation. -/
def roundDouble (q : ℚ) : JSNum :=
  if q = 0 then .fin 0
  else if 0 < q then roundDoublePos q
  else (roundDoublePos (-q)).neg

/-- Rounding towards zero, used by the remainder operator. -/
def truncQ (q : ℚ) : ℤ :=
  if 0 ≤ q then ⌊q⌋ else ⌈q⌉

/-- The operator `*` on numbers. -/
def JSNum.mul : JSNum → JSNum → JSNum
  | .nan, _ => .nan
  | _, .nan => .nan
  | .fin a, .fin b => roundDouble (a * b)
  | .fin a, .posInf => if 0 < a then .posInf else if a < 0 then .negInf else .nan
  | .fin a, .negInf => if 0 < a then .negInf else if a < 0 then .posInf else .nan
  | .posInf, .fin b => if 0 < b then .posInf else if b < 0 then .negInf else .nan
  | .negInf, .fin b => if 0 < b then .negInf else if b < 0 then .posInf else .nan
  | .posInf, .posInf => .posInf
  | .posInf, .negInf => .negInf
  | .negInf, .posInf => .negInf
  | .negInf, .negInf => .posInf

/-- The operator `/` on numbers. -/
def JSNum.div : JSNum → JSNum → JSNum
  | .nan, _ => .nan
  | _, .nan => .nan
  | .fin a, .fin b =>
      if b ≠ 0 then roundDouble (a / b)
      else if 0 < a then .posInf else if a < 0 then .negInf else .nan
  | .fin _, .posInf => .fin 0
  | .fin _, .negInf => .fin 0
  | .posInf, .fin b => if 0 ≤ b then .posInf else .negInf
  | .negInf, .fin b => if 0 ≤ b then .negInf else .posInf
  | .posInf, .posInf => .nan
  | .posInf, .negInf => .nan
  | .negInf, .posInf => .nan
  | .negInf, .negInf => .nan

/-- The operator `%` on numbers: the remainder takes the sign of the dividend; the remainder
of two doubles is a double, so nothing is rounded. -/
def JSNum.mod : JSNum → JSNum → JSNum
  | .nan, _ => .nan
  | _, .nan => .nan
  | .posInf, _ => .nan
  | .negInf, _ => .nan
  | .fin a, .posInf => .fin a
  | .fin a, .negInf => .fin a
  | .fin a, .fin b => if b = 0 then .nan else .fin (a - b * (truncQ (a / b) : ℚ))

/-- The function `Math.floor`. -/
def Math.floor : JSNum → JSInt
  | .nan => .nan
  | .posInf => .posInf
  | .negInf => .negInf
  | .fin q => .int ⌊q⌋

/-- Whether the decimal numeral of `y` is read back as the double `x`. -/
def readsBack (x y : ℕ) : Bool :=
  decide (roundDouble (y : ℚ) = .fin (x : ℚ))

/-- The numeral with `k` significant digits that is read back as `x`, if there is one: the
nearer of the two neighbours of `x` with `k` digits, the one with the even last digit on a
tie. -/
def shortestAt (x k : ℕ) : Option ℕ :=
  let p := (Nat.toDigits 10 x).length - k
  let y0 := x / 10 ^ p * 10 ^ p
  let y1 := (x / 10 ^ p + 1) * 10 ^ p
  if readsBack x y0 then
    if readsBack x y1 then
      if x - y0 < y1 - x then some y0
      else if y1 - x < x - y0 then some y1
      else if x / 10 ^ p % 2 = 0 then some y0 else some y1
    else some y0
  else if readsBack x y1 then some y1
  else none

/-- Search for the numeral with the fewest significant digits, from `k` digits on. -/
def shortestFrom (x : ℕ) : ℕ → ℕ → ℕ
  | 0, _ => x
  | fuel + 1, k =>
      match shortestAt x k with
      | some y => y
      | none => shortestFrom x fuel (k + 1)

/-- The numeral with the fewest significant digits that is read back as the double `x`;
seventeen digits always suffice. -/
def shortestDecimal (x : ℕ) : ℕ :=
  shortestFrom x 17 1

/-- A digit string without its trailing zeros. -/
def dropTrailingZeros (l : List Char) : List Char :=
  (l.reverse.dropWhile fun c => c = '0').reverse

/-- The exponent notation of a numeral: the first digit, a point and the other significant
digits if there are any, then `e+` and the decimal exponent. -/
def exponentForm (y : ℕ) : String :=
  match dropTrailingZeros (Nat.toDigits 10 y) with
  | [] => "0"
  | [d] => String.mk [d] ++ "e+" ++ toString ((Nat.toDigits 10 y).length - 1)
  | d :: ds => String.mk (d :: '.' :: ds) ++ "e+" ++ toString ((Nat.toDigits 10 y).length - 1)

/-- String conversion of a non-negative integral double.  Below `2 ^ 53` every integer is a
double of its own, so all its digits are needed; from there on the shortest numeral that is
read back as the same double is printed, in exponent notation when it has more than 21
digits. -/
def natToJSString (x : ℕ) : String :=
  if x < 2 ^ 53 then toString x
  else if (Nat.toDigits 10 (shortestDecimal x)).length ≤ 21 then toString (shortestDecimal x)
  else exponentForm (shortestDecimal x)

/-- String conversion of an integral number (`toString()` and template literals). -/
def JSInt.toJSString : JSInt → String
  | .nan => "NaN"
  | .posInf => "Infinity"
  | .negInf => "-Infinity"
  | .int z => if z < 0 then "-" ++ natToJSString z.natAbs else natToJSString z.natAbs

/-- The method `String.prototype.padStart(maxLength, fillString)`. -/
def padStart (s : String) (maxLength : Nat) (fillString : String) : String :=
  if maxLength ≤ s.length then s
  else if fillString = "" then s
  else
    let fillLen := maxLength - s.length
    let reps := (List.replicate fillLen fillString.data).flatten
    String.mk (reps.take fillLen ++ s.data)

/-- The method `Number.prototype.toFixed(fractionDigits)`.  From `10 ^ 21` on the result is
the string conversion of the number.  Below, it is the sign, then the integer `n` nearest to
`|x| * 10 ^ f` (the larger one on a tie) written in decimal, padded with zeros to at least
`f + 1` digits, with a point before the last `f` digits. -/
def JSNum.toFixed (x : JSNum) (f : Nat) : String :=
  match x with
  | .nan => "NaN"
  | .posInf => "Infinity"
  | .negInf => "-Infinity"
  | .fin q =>
      let s := if q < 0 then "-" else ""
      let a := |q|
      if (10 : ℚ) ^ 21 ≤ a then s ++ natToJSString ⌊a⌋₊
      else
        let n : Nat := ⌊a * (10 : ℚ) ^ f + 1 / 2⌋.toNat
        let m := if n = 0 then "0" else toString n
        if f = 0 then s ++ m
        else
          let k := m.length
          let m1 := if k ≤ f then String.mk (List.replicate (f + 1 - k) '0' ++ m.data) else m
          let k1 := m1.length
          s ++ String.mk (m1.data.take (k1 - f)) ++ "." ++ String.mk (m1.data.drop (k1 - f))

/-! ## formatTime (lines 44-48) -/

/-- The function `formatTime` of the component. -/
def formatTime (time : JSNum) : String :=
  let minutes := Math.floor (time.div (.fin 60))
  let seconds := padStart (Math.floor (time.mod (.fin 60))).toJSString 2 "0"
  minutes.toJSString ++ ":" ++ seconds

/-! ## The media elements -/

/-- Identity of an event callback: the two function objects the effect registers, or a
callback that some other code registered. -/
inductive Callback where
  | handleLoadedMetadata
  | handleTimeUpdate
  | other (id : Nat)
deriving DecidableEq

/-- An event listener of an element: the event type and the callback. -/
structure Listener where
  type : String
  callback : Callback
deriving DecidableEq

/-- The part of an `HTMLVideoElement` the component reads and writes. -/
structure HTMLVideoElement where
  videoWidth : Nat
  videoHeight : Nat
  duration : JSNum
  currentTime : ℚ
  paused : Bool
  listeners : List Listener
deriving DecidableEq

/-- The method `addEventListener(type, callback)`: a listener that is already registered is
not registered a second time. -/
def HTMLVideoElement.addEventListener (v : HTMLVideoElement) (type : String) (cb : Callback) :
    HTMLVideoElement :=
  if (⟨type, cb⟩ : Listener) ∈ v.listeners then v
  else { v with listeners := v.listeners ++ [⟨type, cb⟩] }

/-- The method `removeEventListener(type, callback)`. -/
def HTMLVideoElement.removeEventListener (v : HTMLVideoElement) (type : String) (cb : Callback) :
    HTMLVideoElement :=
  { v with listeners := v.listeners.erase ⟨type, cb⟩ }

/-- The method `play()`. -/
def HTMLVideoElement.play (v : HTMLVideoElement) : HTMLVideoElement :=
  { v with paused := false }

/-- The method `pause()`. -/
def HTMLVideoElement.pause (v : HTMLVideoElement) : HTMLVideoElement :=
  { v with paused := true }

/-- Assignment to the property `currentTime`. -/
def HTMLVideoElement.setCurrentTime (v : HTMLVideoElement) (t : ℚ) : HTMLVideoElement :=
  { v with currentTime := t }

/-! ## State of the component (lines 6-15) -/

/-- A stats object; a field that is `none` is an absent property (`undefined`). -/
structure Stats where
  resolution : Option String
  duration : Option String
  currentTime : Option String
  codec : Option String
  estimatedSize : Option String
  playbackState : Option String
deriving DecidableEq

/-- The empty object literal. -/
def Stats.empty : Stats := ⟨none, none, none, none, none, none⟩

/-- The values held by the hooks of the component: the six `useState` cells and the two refs
(`none` is a ref whose `current` is `null`). -/
structure State where
  sliderValue : ℚ
  duration : ℚ
  isPlaying : Bool
  showStats : Bool
  originalStats : Stats
  compressedStats : Stats
  originalVideoRef : Option HTMLVideoElement
  compressedVideoRef : Option HTMLVideoElement
deriving DecidableEq

/-- The initial values passed to `useState` and `useRef`. -/
def State.init : State where
  sliderValue := 0
  duration := 0
  isPlaying := true
  showStats := true
  originalStats := Stats.empty
  compressedStats := Stats.empty
  originalVideoRef := none
  compressedVideoRef := none

/-! ## updateStats (lines 17-42) -/

/-- The estimate `(videoWidth * videoHeight * 24 * duration) / (8 * 1e6)`, evaluated from left
to right. -/
def estimatedSizeMB (v : HTMLVideoElement) : JSNum :=
  ((((roundDouble (v.videoWidth : ℚ)).mul (roundDouble (v.videoHeight : ℚ))).mul
    (.fin 24)).mul v.duration).div (.fin (8 * 1000000))

/-- The function `updateStats` of the component. -/
def updateStats (s : State) : State :=
  let s1 :=
    match s.originalVideoRef with
    | some originalVideo =>
        let originalSize := estimatedSizeMB originalVideo
        { s with originalStats :=
            { resolution :=
                some (toString originalVideo.videoWidth ++ "x" ++
                  toString originalVideo.videoHeight)
              duration := some (formatTime originalVideo.duration)
              currentTime := some (formatTime (.fin originalVideo.currentTime))
              codec := some "H.264/AVC"
              estimatedSize := some (originalSize.toFixed 2 ++ " MB")
              playbackState := some (if originalVideo.paused then "Paused" else "Playing") } }
    | none => s
  match s1.compressedVideoRef with
  | some compressedVideo =>
      let compressedSize := estimatedSizeMB compressedVideo
      { s1 with compressedStats :=
          { resolution :=
              some (toString compressedVideo.videoWidth ++ "x" ++
                toString compressedVideo.videoHeight)
            duration := some (formatTime compressedVideo.duration)
            currentTime := some (formatTime (.fin compressedVideo.currentTime))
            codec := some "H.264/AVC"
            estimatedSize := some (compressedSize.toFixed 2 ++ " MB")
            playbackState := some (if compressedVideo.paused then "Paused" else "Playing") } }
  | none => s1

/-! ## Event handlers (lines 60-85) -/

/-- The function `handleTimeUpdate` of the component. -/
def handleTimeUpdate (s : State) : State :=
  match s.originalVideoRef with
  | some originalVideo => updateStats { s with sliderValue := originalVideo.currentTime }
  | none => s

/-- An exception raised by a handler. -/
inductive JSError where
  | typeError
deriving DecidableEq

/-- How a handler that may raise ends: normally, or with an exception; either way with the
state reached at that point. -/
inductive Outcome where
  | ok (s : State)
  | throw (e : JSError) (s : State)
deriving DecidableEq

/-- The state a handler leaves behind. -/
def Outcome.state : Outcome → State
  | .ok s => s
  | .throw _ s => s

/-- The function `handleSliderChange`; `newTime` is `parseFloat(e.target.value)`, which is a
finite number for the value of a range input.  Each ref is tested before it is used. -/
def handleSliderChange (newTime : ℚ) (s : State) : Outcome :=
  let s1 := { s with sliderValue := newTime }
  let s2 :=
    match s1.originalVideoRef with
    | some v => { s1 with originalVideoRef := some (v.setCurrentTime newTime) }
    | none => s1
  match s2.compressedVideoRef with
  | some v => .ok { s2 with compressedVideoRef := some (v.setCurrentTime newTime) }
  | none => .ok s2

/-- The function `handlePausePlay`: both refs are dereferenced without a check, so reading a
property of a `null` ref raises a `TypeError`. -/
def handlePausePlay (s : State) : Outcome :=
  match s.originalVideoRef with
  | none => .throw .typeError s
  | some o =>
      if o.paused then
        let s1 := { s with originalVideoRef := some o.play }
        match s1.compressedVideoRef with
        | none => .throw .typeError s1
        | some c => .ok { s1 with compressedVideoRef := some c.play, isPlaying := true }
      else
        let s1 := { s with originalVideoRef := some o.pause }
        match s1.compressedVideoRef with
        | none => .throw .typeError s1
        | some c => .ok { s1 with compressedVideoRef := some c.pause, isPlaying := false }

/-- The click handlers `() => setShowStats(false)` and `() => setShowStats(true)`. -/
def setShowStats (b : Bool) (s : State) : State :=
  { s with showStats := b }

/-! ## The effect (lines 87-110) -/

/-- The callback `handleLoadedMetadata` created by the effect. -/
def handleLoadedMetadata (s : State) : State :=
  updateStats s

/-- The two `addEventListener` calls the effect makes on one element. -/
def subscribe (v : HTMLVideoElement) : HTMLVideoElement :=
  (v.addEventListener "loadedmetadata" .handleLoadedMetadata).addEventListener
    "timeupdate" .handleTimeUpdate

/-- The two `removeEventListener` calls the cleanup makes on one element. -/
def unsubscribe (v : HTMLVideoElement) : HTMLVideoElement :=
  (v.removeEventListener "loadedmetadata" .handleLoadedMetadata).removeEventListener
    "timeupdate" .handleTimeUpdate

/-- The body of the effect, run on mount. -/
def effect (s : State) : State :=
  let s1 :=
    match s.originalVideoRef with
    | some v => { s with originalVideoRef := some (subscribe v) }
    | none => s
  match s1.compressedVideoRef with
  | some v => { s1 with compressedVideoRef := some (subscribe v) }
  | none => s1

/-- The function the effect returns, run on unmount. -/
def cleanup (s : State) : State :=
  let s1 :=
    match s.originalVideoRef with
    | some v => { s with originalVideoRef := some (unsubscribe v) }
    | none => s
  match s1.compressedVideoRef with
  | some v => { s1 with compressedVideoRef := some (unsubscribe v) }
  | none => s1

/-! ## Rendering (lines 112-190) -/

/-- The JavaScript expression `x || d` for a string property `x` that may be absent: the
absent property and the empty string are falsy. -/
def orDefault (x : Option String) (d : String) : String :=
  match x with
  | some v => if v = "" then d else v
  | none => d

/-- The five lines of text of one stats panel. -/
structure StatsPanel where
  resolution : String
  duration : String
  currentTime : String
  codec : String
  playbackState : String
deriving DecidableEq

/-- The paragraphs of a stats panel (lines 122-127 and 132-137). -/
def renderPanel (st : Stats) : StatsPanel where
  resolution := orDefault st.resolution "Loading..."
  duration := orDefault st.duration "Loading..."
  currentTime := orDefault st.currentTime "0:00"
  codec := orDefault st.codec "N/A"
  playbackState := orDefault st.playbackState "N/A"

/-- The attributes of the range input (lines 178-187). -/
structure RangeInput where
  min : ℚ
  max : ℚ
  step : ℚ
  value : ℚ
deriving DecidableEq

/-- What the component renders, as far as it depends on the state. -/
structure View where
  panels : Option (StatsPanel × StatsPanel)
  showStatsButton : Bool
  pauseIcon : Bool
  slider : RangeInput
deriving DecidableEq

/-- The value the component returns. -/
def render (s : State) : View where
  panels := if s.showStats then some (renderPanel s.originalStats, renderPanel s.compressedStats)
    else none
  showStatsButton := !s.showStats
  pauseIcon := s.isPlaying
  slider := { min := 0, max := s.duration, step := 1 / 10, value := s.sliderValue }

/-! ## Runs of the component -/

/-- The media properties of an element become those of `w`; the listeners of `v` stay. -/
def mediaUpdate (v w : HTMLVideoElement) : HTMLVideoElement :=
  { w with listeners := v.listeners }

/-- One step of a mounted component: the mount itself, a change of the media made by the
browser, an event delivered to a registered listener, or a user action. -/
inductive Step : State → State → Prop where
  | mount (s : State) (o c : HTMLVideoElement) :
      s.originalVideoRef = none → s.compressedVideoRef = none →
      Step s (effect { s with originalVideoRef := some o, compressedVideoRef := some c })
  | mediaOriginal (s : State) (v w : HTMLVideoElement) :
      s.originalVideoRef = some v →
      Step s { s with originalVideoRef := some (mediaUpdate v w) }
  | mediaCompressed (s : State) (v w : HTMLVideoElement) :
      s.compressedVideoRef = some v →
      Step s { s with compressedVideoRef := some (mediaUpdate v w) }
  | loadedMetadata (s : State) (v : HTMLVideoElement) :
      (s.originalVideoRef = some v ∨ s.compressedVideoRef = some v) →
      (⟨"loadedmetadata", .handleLoadedMetadata⟩ : Listener) ∈ v.listeners →
      Step s (handleLoadedMetadata s)
  | timeUpdate (s : State) (v : HTMLVideoElement) :
      (s.originalVideoRef = some v ∨ s.compressedVideoRef = some v) →
      (⟨"timeupdate", .handleTimeUpdate⟩ : Listener) ∈ v.listeners →
      Step s (handleTimeUpdate s)
  | seek (s : State) (newTime : ℚ) : Step s (handleSliderChange newTime s).state
  | toggle (s : State) : Step s (handlePausePlay s).state
  | showStats (s : State) (b : Bool) : Step s (setShowStats b s)

/-- The states a component can be in after any number of steps from the initial state. -/
def Reachable (s : State) : Prop :=
  Relation.ReflTransGen Step State.init s

/-- The listeners of an element whose callback is one of the two callbacks of the component. -/
def widgetListeners (v : HTMLVideoElement) : List Listener :=
  v.listeners.filter fun l =>
    decide (l.callback = .handleLoadedMetadata ∨ l.callback = .handleTimeUpdate)

/-! ## Sample elements and states -/

/-- An element whose metadata has loaded: 1920 x 1080, ten seconds, playing. -/
def sampleLoaded : HTMLVideoElement where
  videoWidth := 1920
  videoHeight := 1080
  duration := .fin 10
  currentTime := 0
  paused := false
  listeners := []

/-- An element whose metadata has not loaded yet. -/
def sampleUnloaded : HTMLVideoElement where
  videoWidth := 0
  videoHeight := 0
  duration := .nan
  currentTime := 0
  paused := true
  listeners := []

/-- A state with both refs set to elements without listeners. -/
def sampleBound : State :=
  { State.init with originalVideoRef := some sampleLoaded, compressedVideoRef := some sampleLoaded }

/-- A state in which the original element is paused and the compressed element is playing. -/
def sampleDiverged : State :=
  { State.init with
    originalVideoRef := some sampleLoaded.pause, compressedVideoRef := some sampleLoaded }

/-- The state after mounting on two elements without metadata. -/
def sampleMounted : State :=
  effect { State.init with
    originalVideoRef := some sampleUnloaded, compressedVideoRef := some sampleUnloaded }

/-- The state after the metadata of the original element has arrived. -/
def sampleOriginalReady : State :=
  { sampleMounted with originalVideoRef := some (mediaUpdate (subscribe sampleUnloaded) sampleLoaded) }

/-- The state after the `loadedmetadata` event of the original element has been handled. -/
def sampleAfterEvent : State :=
  handleLoadedMetadata sampleOriginalReady

/-- A small element: 100 x 50, one second. -/
def sampleSmall : HTMLVideoElement where
  videoWidth := 100
  videoHeight := 50
  duration := .fin 1
  currentTime := 0
  paused := false
  listeners := []

/-- A state in which only the compressed ref is set. -/
def sampleOnlyCompressed : State :=
  { State.init with compressedVideoRef := some sampleLoaded }

/-! ## Unmounting -/

/-- What an unmount leaves behind: the state of the hooks, and the two elements that were
attached to the refs. -/
structure Unmounted where
  state : State
  originalVideo : Option HTMLVideoElement
  compressedVideo : Option HTMLVideoElement
deriving DecidableEq

/-- Unmounting the component.  React detaches the refs of the two `video` elements (it sets
`current` to `null`) while it commits the removal, and runs the cleanup of a `useEffect`
afterwards; the elements themselves are not touched by the detaching. -/
def unmount (s : State) : Unmounted where
  state := cleanup { s with originalVideoRef := none, compressedVideoRef := none }
  originalVideo := s.originalVideoRef
  compressedVideo := s.compressedVideoRef

/-- A state whose original ref is set to the small element. -/
def sampleSmallBound : State :=
  { State.init with originalVideoRef := some sampleSmall }

/-- Two decimal digits: the tens digit and the ones digit of a number below one hundred. -/
def twoDigits (r : Nat) : String :=
  String.mk [Nat.digitChar (r / 10), Nat.digitChar (r % 10)]

/-- The value `x` rounded to the nearest hundredth (a tie goes up), written with all
integer digits, a point and exactly two decimals. -/
def roundedTwoDecimals (x : ℚ) : String :=
  let n : Nat := ⌊x * 100 + 1 / 2⌋.toNat
  toString (n / 100) ++ "." ++ twoDigits (n % 100)

/-! ## Rounding to a double -/

theorem roundHalfEven_sub_le (q : ℚ) : |((roundHalfEven q : ℤ) : ℚ) - q| ≤ 1 / 2 := by
  have h1 := Int.floor_le q
  have h2 := Int.lt_floor_add_one q
  unfold roundHalfEven
  rw [abs_le]
  split_ifs with ha hb hc
  · constructor <;> linarith
  · push_cast; constructor <;> linarith
  · constructor <;> linarith
  · push_cast; constructor <;> linarith

theorem roundHalfEven_intCast (z : ℤ) : roundHalfEven (z : ℚ) = z := by
  unfold roundHalfEven
  simp

theorem le_roundHalfEven (q : ℚ) (z : ℤ) (h : (z : ℚ) ≤ q) : z ≤ roundHalfEven q := by
  have h1 := (abs_le.mp (roundHalfEven_sub_le q)).1
  have h2 : ((z : ℚ) - 1) < ((roundHalfEven q : ℤ) : ℚ) := by linarith
  have h3 : z - 1 < roundHalfEven q := by exact_mod_cast h2
  omega

theorem roundHalfEven_lt (q : ℚ) (z : ℤ) (h : q < (z : ℚ) - 1 / 2) : roundHalfEven q < z := by
  have h1 := (abs_le.mp (roundHalfEven_sub_le q)).2
  have h2 : ((roundHalfEven q : ℤ) : ℚ) < (z : ℚ) := by linarith
  exact_mod_cast h2

theorem log2_floor_eq (q : ℚ) (e : ℕ) (hlo : ((2 ^ e : ℕ) : ℚ) ≤ q)
    (hhi : q < ((2 ^ (e + 1) : ℕ) : ℚ)) : Nat.log2 ⌊q⌋₊ = e := by
  have hq0 : (0 : ℚ) ≤ q := le_trans (by positivity) hlo
  have h1 : 2 ^ e ≤ ⌊q⌋₊ := Nat.le_floor hlo
  have h2 : ⌊q⌋₊ < 2 ^ (e + 1) := (Nat.floor_lt hq0).mpr hhi
  have hne : ⌊q⌋₊ ≠ 0 := by
    have : 0 < 2 ^ e := by positivity
    omega
  have h3 : e ≤ Nat.log2 ⌊q⌋₊ := (Nat.le_log2 hne).mpr h1
  have h4 : Nat.log2 ⌊q⌋₊ < e + 1 := (Nat.log2_lt hne).mpr h2
  omega

theorem ulpOf_of_one_le (q : ℚ) (e : ℕ) (he : e ≤ 52) (hlo : ((2 ^ e : ℕ) : ℚ) ≤ q)
    (hhi : q < ((2 ^ (e + 1) : ℕ) : ℚ)) : ulpOf q = 1 / ((2 ^ (52 - e) : ℕ) : ℚ) := by
  have h1 : (1 : ℚ) ≤ q := by
    have : (1 : ℚ) ≤ ((2 ^ e : ℕ) : ℚ) := by exact_mod_cast Nat.one_le_two_pow
    linarith
  simp only [ulpOf, h1, if_true, log2_floor_eq q e hlo hhi, he]

theorem roundDouble_of_ulp (q u : ℚ) (n : ℤ) (hq : 0 < q) (hu : ulpOf q = u)
    (hn : roundHalfEven (q / u) = n) (hlt : (n : ℚ) * u < 2 ^ 1024) :
    roundDouble q = .fin ((n : ℚ) * u) := by
  have h0 : ¬ (q = 0) := ne_of_gt hq
  have h1 : ¬ ((2 : ℚ) ^ 1024 ≤ (n : ℚ) * u) := not_le.mpr hlt
  simp only [roundDouble, h0, if_false, hq, if_true, roundDoublePos, hu, hn, h1]

theorem roundDouble_natCast (n : ℕ) (h : n < 2 ^ 53) : roundDouble (n : ℚ) = .fin (n : ℚ) := by
  by_cases hn : n = 0
  · subst hn
    simp [roundDouble]
  · have hpos : (0 : ℚ) < (n : ℚ) := by exact_mod_cast Nat.pos_of_ne_zero hn
    have hlog : Nat.log2 n < 53 := (Nat.log2_lt hn).mpr h
    have hlo : ((2 ^ Nat.log2 n : ℕ) : ℚ) ≤ (n : ℚ) := by exact_mod_cast Nat.log2_self_le hn
    have hhi : (n : ℚ) < ((2 ^ (Nat.log2 n + 1) : ℕ) : ℚ) := by exact_mod_cast Nat.lt_log2_self
    have hu := ulpOf_of_one_le (n : ℚ) (Nat.log2 n) (by omega) hlo hhi
    have hK : (0 : ℚ) < ((2 ^ (52 - Nat.log2 n) : ℕ) : ℚ) := by positivity
    have hdiv : (n : ℚ) / (1 / ((2 ^ (52 - Nat.log2 n) : ℕ) : ℚ)) =
        (((n * 2 ^ (52 - Nat.log2 n) : ℕ) : ℤ) : ℚ) := by
      push_cast
      field_simp
    have hr : roundHalfEven ((n : ℚ) / (1 / ((2 ^ (52 - Nat.log2 n) : ℕ) : ℚ))) =
        ((n * 2 ^ (52 - Nat.log2 n) : ℕ) : ℤ) := by
      rw [hdiv, roundHalfEven_intCast]
    have hval : (((n * 2 ^ (52 - Nat.log2 n) : ℕ) : ℤ) : ℚ) *
        (1 / ((2 ^ (52 - Nat.log2 n) : ℕ) : ℚ)) = (n : ℚ) := by
      push_cast
      field_simp
    have hbig : (n : ℚ) < 2 ^ 1024 := by
      have h53 : (n : ℚ) < 2 ^ 53 := by exact_mod_cast h
      have : (2 : ℚ) ^ 53 ≤ 2 ^ 1024 := by
        apply pow_le_pow_right₀ <;> norm_num
      linarith
    have := roundDouble_of_ulp (n : ℚ) _ _ hpos hu hr (by rw [hval]; exact hbig)
    rw [this, hval]

theorem ulpOf_eq_inv_pow (q : ℚ) (hq : q < 2 ^ 48) :
    ∃ j : ℕ, 5 ≤ j ∧ ulpOf q = 1 / ((2 ^ j : ℕ) : ℚ) := by
  by_cases h1 : 1 ≤ q
  · have hq0 : (0 : ℚ) ≤ q := by linarith
    have hne : ⌊q⌋₊ ≠ 0 := by
      have : 1 ≤ ⌊q⌋₊ := Nat.le_floor (by simpa using h1)
      omega
    have hfl : ⌊q⌋₊ < 2 ^ 48 := (Nat.floor_lt hq0).mpr (by simpa using hq)
    have hlog : Nat.log2 ⌊q⌋₊ < 48 := (Nat.log2_lt hne).mpr hfl
    have hle : Nat.log2 ⌊q⌋₊ ≤ 52 := by omega
    refine ⟨52 - Nat.log2 ⌊q⌋₊, by omega, ?_⟩
    simp only [ulpOf, h1, if_true, hle]
  · exact ⟨52 + min (Nat.log2 (⌈1 / q⌉₊ - 1) + 1) 1022, by omega, by simp only [ulpOf, h1, if_false]⟩

/-- A positive value below `2 ^ 48` that is at least one sixtieth below the next integer is
rounded to a double with the same integer part. -/
theorem floor_roundDouble (q : ℚ) (m : ℕ) (hq : 0 < q) (hm : (m : ℚ) ≤ q)
    (hq2 : q ≤ (m : ℚ) + 59 / 60) (hsmall : m < 2 ^ 48) :
    Math.floor (roundDouble q) = .int (m : ℤ) := by
  have hm48 : (m : ℚ) + 1 ≤ 2 ^ 48 := by
    have : m + 1 ≤ 2 ^ 48 := hsmall
    exact_mod_cast this
  obtain ⟨j, hj, hu⟩ := ulpOf_eq_inv_pow q (by linarith)
  have hK32 : (32 : ℚ) ≤ ((2 ^ j : ℕ) : ℚ) := by
    have : 2 ^ 5 ≤ 2 ^ j := Nat.pow_le_pow_right (by norm_num) hj
    have h32 : (32 : ℕ) ≤ 2 ^ j := by simpa using this
    exact_mod_cast h32
  have hK : (0 : ℚ) < ((2 ^ j : ℕ) : ℚ) := by linarith
  have hdiv : q / (1 / ((2 ^ j : ℕ) : ℚ)) = q * ((2 ^ j : ℕ) : ℚ) := by
    field_simp
  have hlow : ((m * 2 ^ j : ℕ) : ℤ) ≤ roundHalfEven (q * ((2 ^ j : ℕ) : ℚ)) := by
    apply le_roundHalfEven
    push_cast
    have := mul_le_mul_of_nonneg_right hm (le_of_lt hK)
    simpa using this
  have hupp : roundHalfEven (q * ((2 ^ j : ℕ) : ℚ)) < (((m + 1) * 2 ^ j : ℕ) : ℤ) := by
    apply roundHalfEven_lt
    push_cast
    have h1 := mul_le_mul_of_nonneg_right hq2 (le_of_lt hK)
    push_cast at h1 hK hK32
    nlinarith
  have hlowQ : (m : ℚ) * ((2 ^ j : ℕ) : ℚ) ≤
      ((roundHalfEven (q * ((2 ^ j : ℕ) : ℚ)) : ℤ) : ℚ) := by
    have : (((m * 2 ^ j : ℕ) : ℤ) : ℚ) ≤ ((roundHalfEven (q * ((2 ^ j : ℕ) : ℚ)) : ℤ) : ℚ) := by
      exact_mod_cast hlow
    simpa using this
  have huppQ : ((roundHalfEven (q * ((2 ^ j : ℕ) : ℚ)) : ℤ) : ℚ) <
      ((m : ℚ) + 1) * ((2 ^ j : ℕ) : ℚ) := by
    have : ((roundHalfEven (q * ((2 ^ j : ℕ) : ℚ)) : ℤ) : ℚ) < ((((m + 1) * 2 ^ j : ℕ) : ℤ) : ℚ) := by
      exact_mod_cast hupp
    simpa using this
  have hr1 : (m : ℚ) ≤
      ((roundHalfEven (q * ((2 ^ j : ℕ) : ℚ)) : ℤ) : ℚ) * (1 / ((2 ^ j : ℕ) : ℚ)) := by
    rw [mul_one_div, le_div_iff₀ hK]
    exact hlowQ
  have hr2 : ((roundHalfEven (q * ((2 ^ j : ℕ) : ℚ)) : ℤ) : ℚ) * (1 / ((2 ^ j : ℕ) : ℚ)) <
      (m : ℚ) + 1 := by
    rw [mul_one_div, div_lt_iff₀ hK]
    exact huppQ
  have hrd := roundDouble_of_ulp q _ _ hq hu (by rw [hdiv])
    (lt_of_lt_of_le hr2 (le_trans hm48 (by apply pow_le_pow_right₀ <;> norm_num)))
  rw [hrd]
  show JSInt.int ⌊_⌋ = JSInt.int (m : ℤ)
  congr 1
  rw [Int.floor_eq_iff]
  constructor
  · exact_mod_cast hr1
  · exact_mod_cast hr2

theorem floor_div_sixty (t : ℕ) : ⌊(t : ℚ) / 60⌋ = ((t / 60 : ℕ) : ℤ) := by
  have h := Rat.floor_natCast_div_natCast t 60
  simpa using h

theorem floor_double_div_sixty (t : ℕ) (h : t < 2 ^ 53) :
    Math.floor ((JSNum.fin (t : ℚ)).div (.fin 60)) = .int ((t / 60 : ℕ) : ℤ) := by
  have h60 : (60 : ℚ) ≠ 0 := by norm_num
  simp only [JSNum.div, h60, if_true, ne_eq, not_false_eq_true]
  by_cases ht : t = 0
  · subst ht
    simp [roundDouble, Math.floor]
  · have hpos : (0 : ℚ) < (t : ℚ) / 60 := by
      have : (0 : ℚ) < (t : ℚ) := by exact_mod_cast Nat.pos_of_ne_zero ht
      positivity
    have hdm := Nat.div_add_mod t 60
    have hmod := Nat.mod_lt t (show 60 > 0 by norm_num)
    have hcast : (60 : ℚ) * ((t / 60 : ℕ) : ℚ) + ((t % 60 : ℕ) : ℚ) = (t : ℚ) := by
      exact_mod_cast hdm
    have hr : ((t % 60 : ℕ) : ℚ) ≤ 59 := by
      have : t % 60 ≤ 59 := by omega
      exact_mod_cast this
    have hr0 : (0 : ℚ) ≤ ((t % 60 : ℕ) : ℚ) := by positivity
    apply floor_roundDouble _ _ hpos
    · rw [le_div_iff₀ (by norm_num)]; linarith
    · rw [div_le_iff₀ (by norm_num)]; linarith
    · have h53 : (2 : ℕ) ^ 53 = 9007199254740992 := by norm_num
      have h48 : (2 : ℕ) ^ 48 = 281474976710656 := by norm_num
      omega

theorem ulpOf_of_large (q : ℚ) (e : ℕ) (he : 52 < e) (hlo : ((2 ^ e : ℕ) : ℚ) ≤ q)
    (hhi : q < ((2 ^ (e + 1) : ℕ) : ℚ)) : ulpOf q = ((2 ^ (e - 52) : ℕ) : ℚ) := by
  have h1 : (1 : ℚ) ≤ q := by
    have : (1 : ℚ) ≤ ((2 ^ e : ℕ) : ℚ) := by exact_mod_cast Nat.one_le_two_pow
    linarith
  have hn : ¬ (e ≤ 52) := by omega
  simp only [ulpOf, h1, if_true, log2_floor_eq q e hlo hhi, hn, if_false]

/-! ## Properties of formatTime -/

theorem truncQ_div_sixty (t : ℕ) : truncQ ((t : ℚ) / 60) = ((t / 60 : ℕ) : ℤ) := by
  have h : (0 : ℚ) ≤ (t : ℚ) / 60 := by positivity
  simp only [truncQ, h, if_true]
  exact floor_div_sixty t

theorem mod_sixty (t : ℕ) : (JSNum.fin (t : ℚ)).mod (.fin 60) = .fin ((t % 60 : ℕ) : ℚ) := by
  have h60 : ¬ ((60 : ℚ) = 0) := by norm_num
  simp only [JSNum.mod, h60, if_false, truncQ_div_sixty, Int.cast_natCast]
  congr 1
  have h := Nat.mod_add_div t 60
  have h2 : ((t % 60 : ℕ) : ℚ) + 60 * ((t / 60 : ℕ) : ℚ) = (t : ℚ) := by exact_mod_cast h
  linarith

theorem floor_natCast (n : ℕ) : Math.floor (.fin (n : ℚ)) = .int (n : ℤ) := by
  show JSInt.int ⌊(n : ℚ)⌋ = JSInt.int (n : ℤ)
  rw [Int.floor_natCast]

theorem toJSString_natCast (n : ℕ) (h : n < 2 ^ 53) :
    (JSInt.int (n : ℤ)).toJSString = toString n := by
  have h0 : ¬ ((n : ℤ) < 0) := by omega
  simp only [JSInt.toJSString, h0, if_false, Int.natAbs_ofNat, natToJSString, h, if_true]

theorem padStart_two_digits : ∀ r : ℕ, r < 60 → padStart (toString r) 2 "0" = twoDigits r := by
  decide!

theorem formatTime_natCast (t : ℕ) (h : t < 2 ^ 53) :
    formatTime (.fin (t : ℚ)) = toString (t / 60) ++ ":" ++ twoDigits (t % 60) := by
  have hmod : t % 60 < 60 := Nat.mod_lt t (by norm_num)
  have hdiv : t / 60 < 2 ^ 53 := lt_of_le_of_lt (Nat.div_le_self t 60) h
  have hmod53 : t % 60 < 2 ^ 53 := lt_of_le_of_lt (Nat.mod_le t 60) h
  simp only [formatTime, mod_sixty, floor_double_div_sixty t h, floor_natCast,
    toJSString_natCast _ hdiv, toJSString_natCast _ hmod53, padStart_two_digits (t % 60) hmod]

theorem div_sixty_at_large :
    (JSNum.fin 67553994410557496).div (.fin 60) = .fin 1125899906842625 := by
  have h60 : (60 : ℚ) ≠ 0 := by norm_num
  simp only [JSNum.div, h60, if_true, ne_eq, not_false_eq_true]
  have hu : ulpOf (67553994410557496 / 60) = 1 / ((2 ^ (52 - 50) : ℕ) : ℚ) :=
    ulpOf_of_one_le _ 50 (by norm_num) (by norm_num) (by norm_num)
  have hn : roundHalfEven ((67553994410557496 / 60 : ℚ) / (1 / ((2 ^ (52 - 50) : ℕ) : ℚ))) =
      4503599627370500 := by decide!
  have := roundDouble_of_ulp (67553994410557496 / 60) _ _ (by norm_num) hu hn (by norm_num)
  rw [this]
  norm_num

theorem roundDouble_at_large :
    roundDouble 67553994410557496 = .fin 67553994410557496 := by
  have hu : ulpOf 67553994410557496 = ((2 ^ (55 - 52) : ℕ) : ℚ) :=
    ulpOf_of_large _ 55 (by norm_num) (by norm_num) (by norm_num)
  have hn : roundHalfEven ((67553994410557496 : ℚ) / ((2 ^ (55 - 52) : ℕ) : ℚ)) =
      8444249301319687 := by decide!
  have := roundDouble_of_ulp 67553994410557496 _ _ (by norm_num) hu hn (by norm_num)
  rw [this]
  norm_num

/-- C1 as stated fails: `67553994410557496` is a whole number of seconds that is a double;
its quotient by sixty is rounded up to the double `1125899906842625`, so `formatTime` shows
one minute more than the whole minutes `1125899906842624`. -/
theorem formatTime_counterexample :
    roundDouble 67553994410557496 = .fin 67553994410557496 ∧
    formatTime (.fin 67553994410557496) = "1125899906842625:56" ∧
    toString (67553994410557496 / 60) ++ ":" ++ twoDigits (67553994410557496 % 60) =
      "1125899906842624:56" := by
  refine ⟨roundDouble_at_large, ?_, by decide!⟩
  have hm : (JSNum.fin 67553994410557496).mod (.fin 60) = .fin 56 := by decide!
  have hs : padStart (Math.floor (JSNum.fin 56)).toJSString 2 "0" = "56" := by decide!
  have hf : (Math.floor (JSNum.fin 1125899906842625)).toJSString = "1125899906842625" := by
    decide!
  simp only [formatTime, div_sixty_at_large, hm, hs, hf]
  decide

/-- C1, amended: for every whole number of seconds `t` below `2 ^ 53`, `formatTime t` is the
decimal rendering of `t / 60` (rounded down, never wrapped into hours), a colon, and `t % 60`
written with exactly two digits; in particular `formatTime 0 = "0:00"`,
`formatTime 65 = "1:05"` and `formatTime 3600 = "60:00"`. -/
theorem formatTime_spec :
    (∀ t : ℕ, t < 2 ^ 53 →
      formatTime (.fin (t : ℚ)) = toString (t / 60) ++ ":" ++ twoDigits (t % 60) ∧
      (twoDigits (t % 60)).length = 2) ∧
    formatTime (.fin 0) = "0:00" ∧ formatTime (.fin 65) = "1:05" ∧
    formatTime (.fin 3600) = "60:00" := by
  refine ⟨fun t ht => ⟨formatTime_natCast t ht, rfl⟩, ?_, ?_, ?_⟩
  · have := formatTime_natCast 0 (by norm_num)
    simpa using this
  · have := formatTime_natCast 65 (by norm_num)
    rw [show ((65 : ℕ) : ℚ) = 65 by norm_num] at this
    rw [this]; decide
  · have := formatTime_natCast 3600 (by norm_num)
    rw [show ((3600 : ℕ) : ℚ) = 3600 by norm_num] at this
    rw [this]; decide

/-- Witness of C1 (amended) at `t = 125`. -/
theorem formatTime_spec_witness :
    125 < 2 ^ 53 ∧
    formatTime (.fin ((125 : ℕ) : ℚ)) = toString (125 / 60) ++ ":" ++ twoDigits (125 % 60) :=
  ⟨by norm_num, (formatTime_spec.1 125 (by norm_num)).1⟩

/-! ## Decimal digits -/

theorem toDigitsCore_append (fuel : ℕ) : ∀ (n : ℕ) (ds : List Char),
    Nat.toDigitsCore 10 fuel n ds = Nat.toDigitsCore 10 fuel n [] ++ ds := by
  induction fuel with
  | zero => intro n ds; simp [Nat.toDigitsCore]
  | succ f ih =>
    intro n ds
    simp only [Nat.toDigitsCore]
    by_cases h : n / 10 = 0
    · simp [h]
    · simp only [h, if_false]
      rw [ih (n / 10) (Nat.digitChar (n % 10) :: ds), ih (n / 10) [Nat.digitChar (n % 10)]]
      simp

theorem toDigitsCore_fuel (f1 : ℕ) : ∀ (f2 n : ℕ) (ds : List Char), n < f1 → n < f2 →
    Nat.toDigitsCore 10 f1 n ds = Nat.toDigitsCore 10 f2 n ds := by
  induction f1 with
  | zero => intro f2 n ds h; omega
  | succ f ih =>
    intro f2 n ds h1 h2
    cases f2 with
    | zero => omega
    | succ g =>
      simp only [Nat.toDigitsCore]
      by_cases h : n / 10 = 0
      · simp [h]
      · simp only [h, if_false]
        have hn : n / 10 < n := Nat.div_lt_self (by omega) (by norm_num)
        exact ih g (n / 10) _ (by omega) (by omega)

theorem toDigits_step (n : ℕ) (h : 10 ≤ n) :
    Nat.toDigits 10 n = Nat.toDigits 10 (n / 10) ++ [Nat.digitChar (n % 10)] := by
  have h0 : ¬ (n / 10 = 0) := by omega
  have hn : n / 10 < n := Nat.div_lt_self (by omega) (by norm_num)
  show Nat.toDigitsCore 10 (n + 1) n [] = Nat.toDigitsCore 10 (n / 10 + 1) (n / 10) [] ++ _
  simp only [Nat.toDigitsCore, h0, if_false]
  rw [toDigitsCore_append n (n / 10) [Nat.digitChar (n % 10)]]
  congr 1
  have := toDigitsCore_fuel n (n / 10 + 1) (n / 10) [] hn (by omega)
  simpa [Nat.toDigitsCore] using this

theorem toDigits_two_steps (n : ℕ) (h : 100 ≤ n) :
    Nat.toDigits 10 n =
      Nat.toDigits 10 (n / 100) ++ [Nat.digitChar (n % 100 / 10), Nat.digitChar (n % 100 % 10)] := by
  rw [toDigits_step n (by omega), toDigits_step (n / 10) (by omega)]
  have e1 : n / 10 / 10 = n / 100 := by omega
  have e2 : n / 10 % 10 = n % 100 / 10 := by omega
  have e3 : n % 10 = n % 100 % 10 := by omega
  rw [e1, e2, ← e3]
  simp

theorem toDigits_ne_nil (n : ℕ) : Nat.toDigits 10 n ≠ [] := by
  by_cases h : 10 ≤ n
  · rw [toDigits_step n h]; simp
  · have : n < 10 := by omega
    interval_cases n <;> decide

/-- The digit handling of `toFixed(2)` on the integer `n` of hundredths. -/
theorem toFixed_digits_small : ∀ n : ℕ, n < 100 →
    (let m := if n = 0 then "0" else toString n
     let m1 := if m.length ≤ 2 then String.mk (List.replicate (2 + 1 - m.length) '0' ++ m.data)
       else m
     "" ++ String.mk (m1.data.take (m1.length - 2)) ++ "." ++
       String.mk (m1.data.drop (m1.length - 2))) =
    toString (n / 100) ++ "." ++ twoDigits (n % 100) := by
  decide!

theorem toFixed_digits (n : ℕ) :
    (let m := if n = 0 then "0" else toString n
     let m1 := if m.length ≤ 2 then String.mk (List.replicate (2 + 1 - m.length) '0' ++ m.data)
       else m
     "" ++ String.mk (m1.data.take (m1.length - 2)) ++ "." ++
       String.mk (m1.data.drop (m1.length - 2))) =
    toString (n / 100) ++ "." ++ twoDigits (n % 100) := by
  by_cases h : n < 100
  · exact toFixed_digits_small n h
  · have h100 : 100 ≤ n := by omega
    have hn0 : ¬ (n = 0) := by omega
    have hdata : (toString n).data =
        Nat.toDigits 10 (n / 100) ++
          [Nat.digitChar (n % 100 / 10), Nat.digitChar (n % 100 % 10)] :=
      toDigits_two_steps n h100
    have hlen : (toString n).length = (Nat.toDigits 10 (n / 100)).length + 2 := by
      show (toString n).data.length = _
      rw [hdata]; simp
    have hk : ¬ ((toString n).length ≤ 2) := by
      have := toDigits_ne_nil (n / 100)
      have : 0 < (Nat.toDigits 10 (n / 100)).length := List.length_pos.mpr this
      omega
    simp only [hn0, if_false, hk]
    rw [hlen, hdata, Nat.add_sub_cancel, List.take_left, List.drop_left]
    rfl

theorem toFixed_two (q : ℚ) (hq : 0 ≤ q) (hlt : q < 10 ^ 21) :
    (JSNum.fin q).toFixed 2 = roundedTwoDecimals q := by
  have hneg : ¬ (q < 0) := not_lt.mpr hq
  have hbig : ¬ ((10 : ℚ) ^ 21 ≤ q) := not_le.mpr hlt
  have h2 : ¬ (2 = 0) := by decide
  have h := toFixed_digits ⌊q * 100 + 1 / 2⌋.toNat
  simp only [JSNum.toFixed, hneg, if_false, abs_of_nonneg hq, roundedTwoDecimals, hbig]
  norm_num at h ⊢
  exact h

theorem nearest_hundredth (x : ℚ) (hx : 0 ≤ x) :
    |((⌊x * 100 + 1 / 2⌋.toNat : ℕ) : ℚ) / 100 - x| ≤ 1 / 200 := by
  have hpos : (0 : ℤ) ≤ ⌊x * 100 + 1 / 2⌋ := Int.floor_nonneg.mpr (by positivity)
  have hcast : ((⌊x * 100 + 1 / 2⌋.toNat : ℕ) : ℚ) = ((⌊x * 100 + 1 / 2⌋ : ℤ) : ℚ) := by
    have := Int.toNat_of_nonneg hpos
    exact_mod_cast this
  have h1 := Int.floor_le (x * 100 + 1 / 2)
  have h2 := Int.lt_floor_add_one (x * 100 + 1 / 2)
  rw [hcast, abs_le]
  constructor <;> linarith

/-! ## The error of one rounding -/

theorem ulpOf_pos (q : ℚ) : 0 < ulpOf q := by
  unfold ulpOf
  split_ifs <;> positivity

theorem ulpOf_le (q : ℚ) (hq : 1 / 2 ^ 1022 ≤ q) : ulpOf q ≤ q / 2 ^ 52 := by
  have hq0 : 0 < q := lt_of_lt_of_le (by positivity) hq
  rw [le_div_iff₀ (by positivity)]
  by_cases h1 : 1 ≤ q
  · have hne : ⌊q⌋₊ ≠ 0 := by
      have : 1 ≤ ⌊q⌋₊ := Nat.le_floor (by simpa using h1)
      omega
    have hpow : ((2 ^ Nat.log2 ⌊q⌋₊ : ℕ) : ℚ) ≤ q :=
      le_trans (by exact_mod_cast Nat.log2_self_le hne) (Nat.floor_le (le_of_lt hq0))
    by_cases he : Nat.log2 ⌊q⌋₊ ≤ 52
    · simp only [ulpOf, h1, if_true, he]
      have hsplit : ((2 ^ (52 - Nat.log2 ⌊q⌋₊) : ℕ) : ℚ) * ((2 ^ Nat.log2 ⌊q⌋₊ : ℕ) : ℚ) =
          2 ^ 52 := by
        have : 2 ^ (52 - Nat.log2 ⌊q⌋₊) * 2 ^ Nat.log2 ⌊q⌋₊ = 2 ^ 52 := by
          rw [← pow_add]; congr 1; omega
        exact_mod_cast this
      have hK : (0 : ℚ) < ((2 ^ (52 - Nat.log2 ⌊q⌋₊) : ℕ) : ℚ) := by positivity
      rw [one_div, inv_mul_le_iff₀ hK, ← hsplit]
      exact mul_le_mul_of_nonneg_left hpow (le_of_lt hK)
    · simp only [ulpOf, h1, if_true, he, if_false]
      have hsplit : ((2 ^ (Nat.log2 ⌊q⌋₊ - 52) : ℕ) : ℚ) * 2 ^ 52 =
          ((2 ^ Nat.log2 ⌊q⌋₊ : ℕ) : ℚ) := by
        have : 2 ^ (Nat.log2 ⌊q⌋₊ - 52) * 2 ^ 52 = 2 ^ Nat.log2 ⌊q⌋₊ := by
          rw [← pow_add]; congr 1; omega
        exact_mod_cast this
      rw [hsplit]
      exact hpow
  · simp only [ulpOf, h1, if_false]
    have hK : (0 : ℚ) < ((2 ^ (52 + min (Nat.log2 (⌈1 / q⌉₊ - 1) + 1) 1022) : ℕ) : ℚ) := by
      positivity
    rw [one_div, inv_mul_le_iff₀ hK]
    have hmin : (1 : ℚ) ≤ q * ((2 ^ min (Nat.log2 (⌈1 / q⌉₊ - 1) + 1) 1022 : ℕ) : ℚ) := by
      by_cases hk : Nat.log2 (⌈1 / q⌉₊ - 1) + 1 ≤ 1022
      · rw [min_eq_left hk]
        have hc : ⌈1 / q⌉₊ ≤ 2 ^ (Nat.log2 (⌈1 / q⌉₊ - 1) + 1) := by
          have := @Nat.lt_log2_self (⌈1 / q⌉₊ - 1)
          omega
        have hc2 : 1 / q ≤ ((2 ^ (Nat.log2 (⌈1 / q⌉₊ - 1) + 1) : ℕ) : ℚ) :=
          le_trans (Nat.le_ceil _) (by exact_mod_cast hc)
        rw [div_le_iff₀ hq0] at hc2
        linarith
      · rw [min_eq_right (by omega)]
        have h2 : (0 : ℚ) < 2 ^ 1022 := by positivity
        rw [div_le_iff₀ h2] at hq
        rw [Nat.cast_pow, Nat.cast_ofNat]
        linarith
    have hsplit : ((2 ^ (52 + min (Nat.log2 (⌈1 / q⌉₊ - 1) + 1) 1022) : ℕ) : ℚ) =
        2 ^ 52 * ((2 ^ min (Nat.log2 (⌈1 / q⌉₊ - 1) + 1) 1022 : ℕ) : ℚ) := by
      push_cast
      rw [pow_add]
    rw [hsplit]
    have h52 : (0 : ℚ) < 2 ^ 52 := by positivity
    nlinarith

/-- One rounding in the normal range changes a value by at most the fraction `2 ^ -53`. -/
theorem roundDouble_err (q : ℚ) (hlo : 1 / 2 ^ 1022 ≤ q) (hhi : q < 2 ^ 1023) :
    ∃ r : ℚ, roundDouble q = .fin r ∧ |r - q| ≤ q / 2 ^ 53 := by
  have hq0 : 0 < q := lt_of_lt_of_le (by positivity) hlo
  have hu := ulpOf_pos q
  have hle := ulpOf_le q hlo
  have herr := roundHalfEven_sub_le (q / ulpOf q)
  have hdist : |((roundHalfEven (q / ulpOf q) : ℤ) : ℚ) * ulpOf q - q| ≤ q / 2 ^ 53 := by
    have e1 : ((roundHalfEven (q / ulpOf q) : ℤ) : ℚ) * ulpOf q - q =
        (((roundHalfEven (q / ulpOf q) : ℤ) : ℚ) - q / ulpOf q) * ulpOf q := by
      field_simp
    rw [e1, abs_mul, abs_of_pos hu]
    have h2 : |((roundHalfEven (q / ulpOf q) : ℤ) : ℚ) - q / ulpOf q| * ulpOf q ≤
        1 / 2 * ulpOf q := mul_le_mul_of_nonneg_right herr (le_of_lt hu)
    have h3 : q / 2 ^ 53 = 1 / 2 * (q / 2 ^ 52) := by
      rw [show (2 : ℚ) ^ 53 = 2 * 2 ^ 52 by norm_num]
      field_simp
    rw [h3]
    linarith
  refine ⟨((roundHalfEven (q / ulpOf q) : ℤ) : ℚ) * ulpOf q,
    roundDouble_of_ulp q _ _ hq0 rfl rfl ?_, hdist⟩
  have h4 := (abs_le.mp hdist).2
  have h5 : q / 2 ^ 53 ≤ q := by
    rw [div_le_iff₀ (by positivity)]
    have : (1 : ℚ) ≤ 2 ^ 53 := by norm_num
    nlinarith
  have h6 : (2 : ℚ) ^ 1024 = 2 * 2 ^ 1023 := by rw [pow_succ]; ring
  rw [h6]
  linarith

/-- One rounding of a value between `2 ^ -24` and `2 ^ 1001`. -/
theorem roundDouble_err_mid (q : ℚ) (hlo : 1 / 2 ^ 24 ≤ q) (hhi : q < 2 ^ 1001) :
    ∃ r : ℚ, roundDouble q = .fin r ∧ |r - q| ≤ q / 2 ^ 53 := by
  apply roundDouble_err
  · have h : (1 : ℚ) / 2 ^ 1022 ≤ 1 / 2 ^ 24 := by
      apply one_div_le_one_div_of_le (by positivity)
      apply pow_le_pow_right₀ <;> norm_num
    linarith
  · have h : (2 : ℚ) ^ 1001 ≤ 2 ^ 1023 := by
      apply pow_le_pow_right₀ <;> norm_num
    linarith

/-! ## Properties of updateStats -/

theorem mul_fin (a b : ℚ) : (JSNum.fin a).mul (.fin b) = roundDouble (a * b) := rfl

theorem div_fin (a b : ℚ) (hb : b ≠ 0) : (JSNum.fin a).div (.fin b) = roundDouble (a / b) := by
  simp only [JSNum.div, hb, if_true, ne_eq, not_false_eq_true]

/-- With a whole product `videoWidth * videoHeight * 24` below `2 ^ 53` the first two
multiplications are exact. -/
theorem estimatedSizeMB_chain (v : HTMLVideoElement) (d : ℚ) (hd : v.duration = .fin d)
    (hW : v.videoWidth * v.videoHeight * 24 < 2 ^ 53) (hw : 0 < v.videoWidth)
    (hh : 0 < v.videoHeight) :
    estimatedSizeMB v =
      (roundDouble (((v.videoWidth * v.videoHeight * 24 : ℕ) : ℚ) * d)).div
        (.fin (8 * 1000000)) := by
  have h1 : v.videoWidth ≤ v.videoWidth * v.videoHeight * 24 := by
    calc v.videoWidth = v.videoWidth * 1 := (Nat.mul_one _).symm
      _ ≤ v.videoWidth * (v.videoHeight * 24) := Nat.mul_le_mul_left _ (by omega)
      _ = v.videoWidth * v.videoHeight * 24 := (Nat.mul_assoc _ _ _).symm
  have h2 : v.videoHeight ≤ v.videoWidth * v.videoHeight * 24 := by
    calc v.videoHeight = 1 * v.videoHeight * 1 := by omega
      _ ≤ v.videoWidth * v.videoHeight * 24 :=
        Nat.mul_le_mul (Nat.mul_le_mul_right _ hw) (by omega)
  have h3 : v.videoWidth * v.videoHeight ≤ v.videoWidth * v.videoHeight * 24 :=
    Nat.le_mul_of_pos_right _ (by omega)
  have e1 := roundDouble_natCast v.videoWidth (by omega)
  have e2 := roundDouble_natCast v.videoHeight (by omega)
  have e3 := roundDouble_natCast (v.videoWidth * v.videoHeight) (by omega)
  have e4 := roundDouble_natCast (v.videoWidth * v.videoHeight * 24) hW
  push_cast at e3 e4
  simp only [estimatedSizeMB, hd, e1, e2, mul_fin, e3, e4]
  push_cast
  rfl

theorem updateStats_originalStats (s : State) (v : HTMLVideoElement)
    (h : s.originalVideoRef = some v) :
    (updateStats s).originalStats =
      { resolution := some (toString v.videoWidth ++ "x" ++ toString v.videoHeight)
        duration := some (formatTime v.duration)
        currentTime := some (formatTime (.fin v.currentTime))
        codec := some "H.264/AVC"
        estimatedSize := some ((estimatedSizeMB v).toFixed 2 ++ " MB")
        playbackState := some (if v.paused then "Paused" else "Playing") } := by
  unfold updateStats
  simp only [h]
  cases s.compressedVideoRef <;> rfl

theorem updateStats_compressedStats (s : State) (v : HTMLVideoElement)
    (h : s.compressedVideoRef = some v) :
    (updateStats s).compressedStats =
      { resolution := some (toString v.videoWidth ++ "x" ++ toString v.videoHeight)
        duration := some (formatTime v.duration)
        currentTime := some (formatTime (.fin v.currentTime))
        codec := some "H.264/AVC"
        estimatedSize := some ((estimatedSizeMB v).toFixed 2 ++ " MB")
        playbackState := some (if v.paused then "Paused" else "Playing") } := by
  unfold updateStats
  cases ho : s.originalVideoRef <;> simp only [h]

/-- The estimate differs from the exact quotient by at most the fraction `2 ^ -51`. -/
theorem estimatedSizeMB_err (v : HTMLVideoElement) (d : ℚ) (hd : v.duration = .fin d)
    (hW : v.videoWidth * v.videoHeight * 24 < 2 ^ 53)
    (h1 : 1 ≤ ((v.videoWidth * v.videoHeight * 24 : ℕ) : ℚ) * d)
    (h2 : ((v.videoWidth * v.videoHeight * 24 : ℕ) : ℚ) * d < 2 ^ 1000) :
    ∃ x : ℚ, estimatedSizeMB v = .fin x ∧ 0 ≤ x ∧
      |x - (v.videoWidth : ℚ) * (v.videoHeight : ℚ) * 24 * d / (8 * 10 ^ 6)| ≤
        (v.videoWidth : ℚ) * (v.videoHeight : ℚ) * 24 * d / (8 * 10 ^ 6) / 2 ^ 51 := by
  have hWpos : 0 < v.videoWidth * v.videoHeight * 24 := by
    rcases Nat.eq_zero_or_pos (v.videoWidth * v.videoHeight * 24) with h0 | h0
    · rw [h0] at h1; norm_num at h1
    · exact h0
  have hw : 0 < v.videoWidth := by
    rcases Nat.eq_zero_or_pos v.videoWidth with h0 | h0
    · rw [h0] at hWpos; simp at hWpos
    · exact h0
  have hh : 0 < v.videoHeight := by
    rcases Nat.eq_zero_or_pos v.videoHeight with h0 | h0
    · rw [h0] at hWpos; simp at hWpos
    · exact h0
  rw [estimatedSizeMB_chain v d hd hW hw hh]
  have hE : (v.videoWidth : ℚ) * (v.videoHeight : ℚ) * 24 * d =
      ((v.videoWidth * v.videoHeight * 24 : ℕ) : ℚ) * d := by push_cast; ring
  rw [hE]
  generalize ((v.videoWidth * v.videoHeight * 24 : ℕ) : ℚ) * d = E at h1 h2 ⊢
  have hA : (2 : ℚ) ^ 1001 = 2 * 2 ^ 1000 := by rw [pow_succ]; ring
  obtain ⟨p, hp, hperr⟩ := roundDouble_err_mid E (by norm_num at *; linarith)
    (by rw [hA]; linarith)
  have hp1 := (abs_le.mp hperr).1
  have hp2 := (abs_le.mp hperr).2
  have h53 : E / 2 ^ 53 ≤ E / 2 := by
    apply div_le_div_of_nonneg_left (by linarith) (by norm_num) (by norm_num)
  have hplo : 1 / 2 ≤ p := by linarith
  have hphi : p ≤ E + E / 2 ^ 53 := by linarith
  rw [hp, div_fin _ _ (by norm_num)]
  have hy1 : (1 : ℚ) / 2 ^ 24 ≤ p / (8 * 1000000) := by
    rw [le_div_iff₀ (by norm_num)]
    norm_num
    linarith
  have hy2 : p / (8 * 1000000) < 2 ^ 1001 := by
    rw [div_lt_iff₀ (by norm_num), hA]
    nlinarith
  obtain ⟨x, hx, hxerr⟩ := roundDouble_err_mid (p / (8 * 1000000)) hy1 hy2
  have hx1 := (abs_le.mp hxerr).1
  have hx2 := (abs_le.mp hxerr).2
  have hp0 : (0 : ℚ) ≤ p := by linarith
  have hy00 : 0 ≤ p / (8 * 1000000) := div_nonneg hp0 (by norm_num)
  have hy0 : 0 ≤ p / (8 * 1000000) / 2 ^ 53 := div_nonneg hy00 (by norm_num)
  have hEq : E / (8 * 10 ^ 6) = E / (8 * 1000000) := by norm_num
  have hyE : p / (8 * 1000000) = E / (8 * 1000000) + (p - E) / (8 * 1000000) := by ring
  refine ⟨x, hx, ?_, ?_⟩
  · have : p / (8 * 1000000) / 2 ^ 53 ≤ p / (8 * 1000000) := by
      apply div_le_self hy00 (by norm_num)
    linarith
  · rw [hEq, abs_le]
    have k1 : (p - E) / (8 * 1000000) ≤ E / 2 ^ 53 / (8 * 1000000) := by
      apply div_le_div_of_nonneg_right hp2 (by norm_num)
    have k2 : -(E / 2 ^ 53) / (8 * 1000000) ≤ (p - E) / (8 * 1000000) := by
      apply div_le_div_of_nonneg_right hp1 (by norm_num)
    have k3 : p / (8 * 1000000) / 2 ^ 53 ≤ 2 * E / (8 * 1000000) / 2 ^ 53 := by
      apply div_le_div_of_nonneg_right _ (by norm_num)
      apply div_le_div_of_nonneg_right _ (by norm_num)
      linarith
    have k4 : E / (8 * 1000000) / 2 ^ 51 =
        2 * E / (8 * 1000000) / 2 ^ 53 + 2 * (E / 2 ^ 53 / (8 * 1000000)) := by
      rw [show (2 : ℚ) ^ 53 = 4 * 2 ^ 51 by norm_num]
      field_simp
      ring
    have k5 : 0 ≤ E / 2 ^ 53 / (8 * 1000000) :=
      div_nonneg (div_nonneg (by linarith) (by norm_num)) (by norm_num)
    have k6 : -(E / 2 ^ 53) / (8 * 1000000) = -(E / 2 ^ 53 / (8 * 1000000)) := by ring
    constructor <;> linarith

theorem roundDouble_hd_quotient :
    roundDouble (497664000 / (8 * 1000000)) = .fin (2188749418902061 / 35184372088832) := by
  have hu : ulpOf (497664000 / (8 * 1000000)) = 1 / ((2 ^ (52 - 5) : ℕ) : ℚ) :=
    ulpOf_of_one_le _ 5 (by norm_num) (by norm_num) (by norm_num)
  have hn : roundHalfEven ((497664000 / (8 * 1000000) : ℚ) / (1 / ((2 ^ (52 - 5) : ℕ) : ℚ))) =
      8754997675608244 := by decide!
  have := roundDouble_of_ulp (497664000 / (8 * 1000000)) _ _ (by norm_num) hu hn (by norm_num)
  rw [this]
  norm_num

theorem estimatedSizeMB_hd (v : HTMLVideoElement) (hw : v.videoWidth = 1920)
    (hh : v.videoHeight = 1080) (hd : v.duration = .fin 10) :
    estimatedSizeMB v = .fin (2188749418902061 / 35184372088832) := by
  rw [estimatedSizeMB_chain v 10 hd (by rw [hw, hh]; norm_num) (by omega) (by omega), hw, hh]
  have e : (((1920 * 1080 * 24 : ℕ) : ℚ) * 10) = ((497664000 : ℕ) : ℚ) := by norm_num
  rw [e, roundDouble_natCast 497664000 (by norm_num), div_fin _ _ (by norm_num)]
  rw [show ((497664000 : ℕ) : ℚ) = 497664000 by norm_num]
  exact roundDouble_hd_quotient

theorem roundDouble_small_quotient :
    roundDouble (120000 / (8 * 1000000)) = .fin (1080863910568919 / 72057594037927936) := by
  have hu : ulpOf (120000 / (8 * 1000000)) = 1 / ((2 ^ 59 : ℕ) : ℚ) := by decide!
  have hn : roundHalfEven ((120000 / (8 * 1000000) : ℚ) / (1 / ((2 ^ 59 : ℕ) : ℚ))) =
      8646911284551352 := by decide!
  have := roundDouble_of_ulp (120000 / (8 * 1000000)) _ _ (by norm_num) hu hn (by norm_num)
  rw [this]
  norm_num

theorem estimatedSizeMB_small :
    estimatedSizeMB sampleSmall = .fin (1080863910568919 / 72057594037927936) := by
  rw [estimatedSizeMB_chain sampleSmall 1 rfl (by decide) (by decide) (by decide)]
  have e : (((sampleSmall.videoWidth * sampleSmall.videoHeight * 24 : ℕ) : ℚ) * 1) =
      ((120000 : ℕ) : ℚ) := by
    show (((100 * 50 * 24 : ℕ) : ℚ) * 1) = ((120000 : ℕ) : ℚ)
    norm_num
  rw [e, roundDouble_natCast 120000 (by norm_num), div_fin _ _ (by norm_num)]
  rw [show ((120000 : ℕ) : ℚ) = 120000 by norm_num]
  exact roundDouble_small_quotient

/-- C2 as stated fails: for the 100 x 50 element of one second the exact quotient is `0.015`,
which rounded to two decimals with a tie going up or to the even digit is `0.02`; the code
holds the double just below `0.015` and stores `"0.01 MB"`. -/
theorem estimatedSize_counterexample :
    sampleSmallBound.originalVideoRef = some sampleSmall ∧
    (sampleSmall.videoWidth : ℚ) * (sampleSmall.videoHeight : ℚ) * 24 * 1 / (8 * 10 ^ 6) =
      15 / 1000 ∧
    estimatedSizeMB sampleSmall = .fin (1080863910568919 / 72057594037927936) ∧
    estimatedSizeMB sampleSmall ≠ .fin (15 / 1000) ∧
    (updateStats sampleSmallBound).originalStats.estimatedSize = some "0.01 MB" ∧
    roundedTwoDecimals (15 / 1000) = "0.02" := by
  refine ⟨rfl, ?_, estimatedSizeMB_small, ?_, ?_, by decide!⟩
  · show ((100 : ℕ) : ℚ) * ((50 : ℕ) : ℚ) * 24 * 1 / (8 * 10 ^ 6) = 15 / 1000
    norm_num
  · rw [estimatedSizeMB_small]
    intro h
    injection h with h
    norm_num at h
  · rw [updateStats_originalStats sampleSmallBound sampleSmall rfl, estimatedSizeMB_small]
    have hs : (JSNum.fin (1080863910568919 / 72057594037927936)).toFixed 2 ++ " MB" =
        "0.01 MB" := by decide!
    exact congrArg some hs

/-- C2, amended: for a binding of width `w`, height `h` and duration `d` with
`w * h * 24 < 2 ^ 53` and `1 ≤ w * h * 24 * d < 2 ^ 1000`, the estimated size that
`updateStats` computes is a double within the fraction `2 ^ -51` of
`(w * h * 24 * d) / (8 * 10^6)`; when it is below `10 ^ 21` the stats field holds it rounded to
the nearest hundredth (a tie going up), written with two decimals and followed by `" MB"`.  For
`1920 x 1080` and ten seconds it is the double next to `62.208` and the field is
`"62.21 MB"`. -/
theorem estimatedSize_spec :
    (∀ (s : State) (v : HTMLVideoElement) (d : ℚ), v.duration = .fin d →
      v.videoWidth * v.videoHeight * 24 < 2 ^ 53 →
      1 ≤ ((v.videoWidth * v.videoHeight * 24 : ℕ) : ℚ) * d →
      ((v.videoWidth * v.videoHeight * 24 : ℕ) : ℚ) * d < 2 ^ 1000 →
      ∃ x : ℚ, estimatedSizeMB v = .fin x ∧
        |x - (v.videoWidth : ℚ) * (v.videoHeight : ℚ) * 24 * d / (8 * 10 ^ 6)| ≤
          (v.videoWidth : ℚ) * (v.videoHeight : ℚ) * 24 * d / (8 * 10 ^ 6) / 2 ^ 51 ∧
        (x < 10 ^ 21 →
          (s.originalVideoRef = some v → (updateStats s).originalStats.estimatedSize =
            some (roundedTwoDecimals x ++ " MB")) ∧
          (s.compressedVideoRef = some v → (updateStats s).compressedStats.estimatedSize =
            some (roundedTwoDecimals x ++ " MB")) ∧
          |((⌊x * 100 + 1 / 2⌋.toNat : ℕ) : ℚ) / 100 - x| ≤ 1 / 200)) ∧
    (∀ (s : State) (v : HTMLVideoElement), v.videoWidth = 1920 → v.videoHeight = 1080 →
      v.duration = .fin 10 → s.originalVideoRef = some v →
      estimatedSizeMB v = .fin (2188749418902061 / 35184372088832) ∧
      |(2188749418902061 / 35184372088832 : ℚ) - 62208 / 1000| ≤ 1 / 10 ^ 14 ∧
      (updateStats s).originalStats.estimatedSize = some "62.21 MB") := by
  constructor
  · intro s v d hd hW h1 h2
    obtain ⟨x, hx, hx0, herr⟩ := estimatedSizeMB_err v d hd hW h1 h2
    refine ⟨x, hx, herr, fun hlt => ⟨?_, ?_, nearest_hundredth x hx0⟩⟩
    · intro h
      rw [updateStats_originalStats s v h, hx, toFixed_two x hx0 hlt]
    · intro h
      rw [updateStats_compressedStats s v h, hx, toFixed_two x hx0 hlt]
  · intro s v hw hh hd h
    have e := estimatedSizeMB_hd v hw hh hd
    refine ⟨e, ?_, ?_⟩
    · rw [abs_le]; constructor <;> norm_num
    · rw [updateStats_originalStats s v h, e]
      have hs : (JSNum.fin (2188749418902061 / 35184372088832)).toFixed 2 ++ " MB" =
          "62.21 MB" := by decide!
      exact congrArg some hs

/-- Witness of C2 (amended) at the 1920 x 1080, ten second element. -/
theorem estimatedSize_spec_witness :
    sampleLoaded.duration = .fin 10 ∧
    sampleLoaded.videoWidth * sampleLoaded.videoHeight * 24 < 2 ^ 53 ∧
    sampleBound.originalVideoRef = some sampleLoaded ∧
    (∃ x : ℚ, estimatedSizeMB sampleLoaded = .fin x ∧
      |x - (sampleLoaded.videoWidth : ℚ) * (sampleLoaded.videoHeight : ℚ) * 24 * 10
          / (8 * 10 ^ 6)| ≤
        (sampleLoaded.videoWidth : ℚ) * (sampleLoaded.videoHeight : ℚ) * 24 * 10
          / (8 * 10 ^ 6) / 2 ^ 51) ∧
    (updateStats sampleBound).originalStats.estimatedSize = some "62.21 MB" := by
  have h1 : (1 : ℚ) ≤
      ((sampleLoaded.videoWidth * sampleLoaded.videoHeight * 24 : ℕ) : ℚ) * 10 := by
    show (1 : ℚ) ≤ ((1920 * 1080 * 24 : ℕ) : ℚ) * 10
    norm_num
  have h2 : ((sampleLoaded.videoWidth * sampleLoaded.videoHeight * 24 : ℕ) : ℚ) * 10 <
      2 ^ 1000 := by
    have h40 : ((1920 * 1080 * 24 : ℕ) : ℚ) * 10 < 2 ^ 40 := by norm_num
    have hpow : (2 : ℚ) ^ 40 ≤ 2 ^ 1000 := by
      apply pow_le_pow_right₀ <;> norm_num
    exact lt_of_lt_of_le h40 hpow
  obtain ⟨x, hx, herr, _⟩ :=
    estimatedSize_spec.1 sampleBound sampleLoaded 10 rfl (by decide) h1 h2
  exact ⟨rfl, by decide, rfl, ⟨x, hx, herr⟩,
    (estimatedSize_spec.2 sampleBound sampleLoaded rfl rfl rfl rfl).2.2⟩

theorem handleTimeUpdate_of_some (s : State) (o : HTMLVideoElement)
    (h : s.originalVideoRef = some o) :
    handleTimeUpdate s = updateStats { s with sliderValue := o.currentTime } := by
  simp only [handleTimeUpdate, h]

/-- C9: after `updateStats` has run for a metadata-ready or a time-advanced event, the
resolution of a present binding is the decimal rendering of its width, an `x`, and the decimal
rendering of its height, whatever the rest of the state is. -/
theorem resolution_spec (v : HTMLVideoElement) :
    (∀ s : State, s.originalVideoRef = some v →
      (handleLoadedMetadata s).originalStats.resolution =
        some (toString v.videoWidth ++ "x" ++ toString v.videoHeight) ∧
      (handleTimeUpdate s).originalStats.resolution =
        some (toString v.videoWidth ++ "x" ++ toString v.videoHeight)) ∧
    (∀ s : State, s.compressedVideoRef = some v →
      (handleLoadedMetadata s).compressedStats.resolution =
        some (toString v.videoWidth ++ "x" ++ toString v.videoHeight) ∧
      (s.originalVideoRef ≠ none → (handleTimeUpdate s).compressedStats.resolution =
        some (toString v.videoWidth ++ "x" ++ toString v.videoHeight))) := by
  constructor
  · intro s h
    constructor
    · simp only [handleLoadedMetadata, updateStats_originalStats s v h]
    · rw [handleTimeUpdate_of_some s v h,
        updateStats_originalStats { s with sliderValue := v.currentTime } v h]
  · intro s h
    constructor
    · simp only [handleLoadedMetadata, updateStats_compressedStats s v h]
    · intro ho
      cases hv : s.originalVideoRef with
      | none => exact absurd hv ho
      | some o =>
        rw [handleTimeUpdate_of_some s o hv,
          updateStats_compressedStats { s with sliderValue := o.currentTime } v h]

/-- Witness of C9 at a state with both refs set. -/
theorem resolution_spec_witness :
    sampleBound.originalVideoRef = some sampleLoaded ∧
    (handleLoadedMetadata sampleBound).originalStats.resolution =
      some (toString sampleLoaded.videoWidth ++ "x" ++ toString sampleLoaded.videoHeight) :=
  ⟨rfl, ((resolution_spec sampleLoaded).1 sampleBound rfl).1⟩

/-! ## Properties of the handlers -/

/-- C3: with both bindings present, a seek to `newTime` (in particular one within
`[0, duration]`) ends normally, leaves the `currentTime` of both bindings equal to `newTime`,
and the time-advanced handler that runs next leaves `sliderValue` equal to `newTime`. -/
theorem seek_spec (s : State) (o c : HTMLVideoElement) (newTime : ℚ)
    (ho : s.originalVideoRef = some o) (hc : s.compressedVideoRef = some c) :
    ∃ s1 o1 c1, handleSliderChange newTime s = .ok s1 ∧
      s1.originalVideoRef = some o1 ∧ s1.compressedVideoRef = some c1 ∧
      o1.currentTime = newTime ∧ c1.currentTime = newTime ∧
      (handleTimeUpdate s1).sliderValue = newTime := by
  refine ⟨{ s with
      sliderValue := newTime
      originalVideoRef := some (o.setCurrentTime newTime)
      compressedVideoRef := some (c.setCurrentTime newTime) },
    o.setCurrentTime newTime, c.setCurrentTime newTime, ?_, rfl, rfl, rfl, rfl, ?_⟩
  · simp only [handleSliderChange, ho, hc]
  · simp only [handleTimeUpdate, updateStats, HTMLVideoElement.setCurrentTime]

/-- Witness of C3: a seek to second 4 in a state with both refs set. -/
theorem seek_spec_witness :
    sampleBound.originalVideoRef = some sampleLoaded ∧
    sampleBound.compressedVideoRef = some sampleLoaded ∧
    ∃ s1 o1 c1, handleSliderChange 4 sampleBound = .ok s1 ∧
      s1.originalVideoRef = some o1 ∧ s1.compressedVideoRef = some c1 ∧
      o1.currentTime = 4 ∧ c1.currentTime = 4 ∧
      (handleTimeUpdate s1).sliderValue = 4 :=
  ⟨rfl, rfl, seek_spec sampleBound sampleLoaded sampleLoaded 4 rfl rfl⟩

theorem handlePausePlay_of_some (s : State) (o c : HTMLVideoElement)
    (ho : s.originalVideoRef = some o) (hc : s.compressedVideoRef = some c) :
    handlePausePlay s =
      .ok { s with
        originalVideoRef := some { o with paused := !o.paused }
        compressedVideoRef := some { c with paused := !o.paused }
        isPlaying := o.paused } := by
  cases hp : o.paused <;>
    simp [handlePausePlay, ho, hc, hp, HTMLVideoElement.play, HTMLVideoElement.pause]

theorem handleSliderChange_eq (s : State) (newTime : ℚ) :
    handleSliderChange newTime s =
      .ok { s with
        sliderValue := newTime
        originalVideoRef := s.originalVideoRef.map fun v => v.setCurrentTime newTime
        compressedVideoRef := s.compressedVideoRef.map fun v => v.setCurrentTime newTime } := by
  cases ho : s.originalVideoRef <;> cases hc : s.compressedVideoRef <;>
    simp [handleSliderChange, ho, hc]

/-- C5: with both bindings present, `handlePausePlay` looks at the paused flag of the original
binding only: if it is paused both bindings end up playing and `isPlaying` is true, otherwise
both end up paused and `isPlaying` is false; the prior paused flag of the compressed binding
does not change the outcome. -/
theorem toggle_spec (s : State) (o c : HTMLVideoElement)
    (ho : s.originalVideoRef = some o) (hc : s.compressedVideoRef = some c) :
    handlePausePlay s =
      .ok { s with
        originalVideoRef := some { o with paused := !o.paused }
        compressedVideoRef := some { c with paused := !o.paused }
        isPlaying := o.paused } ∧
    ∀ b : Bool,
      handlePausePlay { s with compressedVideoRef := some { c with paused := b } } =
        handlePausePlay s := by
  constructor
  · exact handlePausePlay_of_some s o c ho hc
  · intro b
    cases hp : o.paused <;>
      simp [handlePausePlay, ho, hc, hp, HTMLVideoElement.play, HTMLVideoElement.pause]

/-- Witness of C5 at a state whose original element is paused and whose compressed element
is playing. -/
theorem toggle_spec_witness :
    sampleDiverged.originalVideoRef = some sampleLoaded.pause ∧
    sampleDiverged.compressedVideoRef = some sampleLoaded ∧
    handlePausePlay sampleDiverged =
      .ok { sampleDiverged with
        originalVideoRef := some { sampleLoaded.pause with paused := !sampleLoaded.pause.paused }
        compressedVideoRef := some { sampleLoaded with paused := !sampleLoaded.pause.paused }
        isPlaying := sampleLoaded.pause.paused } :=
  ⟨rfl, rfl, (toggle_spec sampleDiverged sampleLoaded.pause sampleLoaded rfl rfl).1⟩

/-- C4 as stated fails: from a state whose original element is paused and whose compressed
element is playing, two calls of `handlePausePlay` leave the compressed element paused. -/
theorem toggle_twice_counterexample :
    sampleDiverged.originalVideoRef = some sampleLoaded.pause ∧
    sampleDiverged.compressedVideoRef = some sampleLoaded ∧
    sampleLoaded.paused = false ∧ sampleLoaded.pause.paused = true ∧
    handlePausePlay (handlePausePlay sampleDiverged).state =
      .ok { sampleDiverged with
        compressedVideoRef := some sampleLoaded.pause, isPlaying := false } := by
  decide

/-- C4, amended: with both bindings present, two calls of `handlePausePlay` in a row end
normally, return the original binding to its paused flag, and leave the compressed binding
with the paused flag the original binding had; so both bindings are back at their paused
flags when the two flags agreed before the first call. -/
theorem toggle_twice_spec (s : State) (o c : HTMLVideoElement)
    (ho : s.originalVideoRef = some o) (hc : s.compressedVideoRef = some c) :
    handlePausePlay (handlePausePlay s).state =
      .ok { s with
        originalVideoRef := some o
        compressedVideoRef := some { c with paused := o.paused }
        isPlaying := !o.paused } ∧
    (o.paused = c.paused →
      handlePausePlay (handlePausePlay s).state = .ok { s with isPlaying := !o.paused }) := by
  have h1 : handlePausePlay (handlePausePlay s).state =
      .ok { s with
        originalVideoRef := some o
        compressedVideoRef := some { c with paused := o.paused }
        isPlaying := !o.paused } := by
    rw [handlePausePlay_of_some s o c ho hc]
    cases hp : o.paused <;>
      simp [handlePausePlay, Outcome.state, hp, HTMLVideoElement.play, HTMLVideoElement.pause]
    · cases o; simp_all
    · cases o; simp_all
  refine ⟨h1, fun hpc => ?_⟩
  rw [h1]
  cases s; cases c
  simp_all

/-- Witness of C4 (amended) at a state with both elements playing. -/
theorem toggle_twice_spec_witness :
    sampleBound.originalVideoRef = some sampleLoaded ∧
    sampleBound.compressedVideoRef = some sampleLoaded ∧
    sampleLoaded.paused = sampleLoaded.paused ∧
    handlePausePlay (handlePausePlay sampleBound).state =
      .ok { sampleBound with isPlaying := !sampleLoaded.paused } :=
  ⟨rfl, rfl, rfl, (toggle_twice_spec sampleBound sampleLoaded sampleLoaded rfl rfl).2 rfl⟩

/-- C8: a seek ends normally whichever refs are set, stores `newTime` in `sliderValue`, leaves
every present element with `currentTime` equal to `newTime` and nothing else changed, and
leaves an unset ref unset; `handlePausePlay` with the original ref unset raises a
`TypeError`. -/
theorem seek_guarded_toggle_unguarded :
    (∀ (s : State) (newTime : ℚ), ∃ s1 : State,
      handleSliderChange newTime s = .ok s1 ∧ s1.sliderValue = newTime ∧
      (∀ o, s.originalVideoRef = some o →
        ∃ o1, s1.originalVideoRef = some o1 ∧ o1.currentTime = newTime ∧
          o1 = { o with currentTime := newTime }) ∧
      (s.originalVideoRef = none → s1.originalVideoRef = none) ∧
      (∀ c, s.compressedVideoRef = some c →
        ∃ c1, s1.compressedVideoRef = some c1 ∧ c1.currentTime = newTime ∧
          c1 = { c with currentTime := newTime }) ∧
      (s.compressedVideoRef = none → s1.compressedVideoRef = none)) ∧
    (∀ s : State, s.originalVideoRef = none → handlePausePlay s = .throw .typeError s) := by
  constructor
  · intro s newTime
    refine ⟨_, handleSliderChange_eq s newTime, rfl, ?_, ?_, ?_, ?_⟩
    · intro o ho
      exact ⟨{ o with currentTime := newTime }, by simp [ho, HTMLVideoElement.setCurrentTime],
        rfl, rfl⟩
    · intro ho
      simp [ho]
    · intro c hc
      exact ⟨{ c with currentTime := newTime }, by simp [hc, HTMLVideoElement.setCurrentTime],
        rfl, rfl⟩
    · intro hc
      simp [hc]
  · intro s h
    simp only [handlePausePlay, h]

/-- Witness of C8: a seek to second 4 while only the compressed ref is set, and the toggle in
the initial state, where no ref is set. -/
theorem seek_guarded_toggle_unguarded_witness :
    sampleOnlyCompressed.originalVideoRef = none ∧
    sampleOnlyCompressed.compressedVideoRef = some sampleLoaded ∧
    (∃ s1 : State, handleSliderChange 4 sampleOnlyCompressed = .ok s1 ∧ s1.sliderValue = 4 ∧
      s1.originalVideoRef = none ∧
      ∃ c1, s1.compressedVideoRef = some c1 ∧ c1.currentTime = 4 ∧
        c1 = { sampleLoaded with currentTime := 4 }) ∧
    State.init.originalVideoRef = none ∧
    handlePausePlay State.init = .throw .typeError State.init := by
  obtain ⟨s1, h1, h2, _, h4, h5, _⟩ := seek_guarded_toggle_unguarded.1 sampleOnlyCompressed 4
  exact ⟨rfl, rfl, ⟨s1, h1, h2, h4 rfl, h5 sampleLoaded rfl⟩, rfl,
    seek_guarded_toggle_unguarded.2 State.init rfl⟩

/-! ## Properties of the effect -/

theorem not_mem_of_widgetListeners_nil (v : HTMLVideoElement) (h : widgetListeners v = []) :
    (⟨"loadedmetadata", .handleLoadedMetadata⟩ : Listener) ∉ v.listeners ∧
    (⟨"timeupdate", .handleTimeUpdate⟩ : Listener) ∉ v.listeners := by
  simp only [widgetListeners, List.filter_eq_nil_iff] at h
  constructor
  · intro hm
    exact h _ hm (by simp)
  · intro hm
    exact h _ hm (by simp)

theorem subscribe_eq (v : HTMLVideoElement) (h : widgetListeners v = []) :
    subscribe v =
      { v with listeners := v.listeners ++
          [⟨"loadedmetadata", .handleLoadedMetadata⟩, ⟨"timeupdate", .handleTimeUpdate⟩] } := by
  obtain ⟨h1, h2⟩ := not_mem_of_widgetListeners_nil v h
  have h3 : (⟨"timeupdate", .handleTimeUpdate⟩ : Listener) ∉
      v.listeners ++ [⟨"loadedmetadata", .handleLoadedMetadata⟩] := by
    simp [h2]
  simp only [subscribe, HTMLVideoElement.addEventListener, h1, if_false, h3]
  simp

theorem unsubscribe_subscribe (v : HTMLVideoElement) (h : widgetListeners v = []) :
    unsubscribe (subscribe v) = v := by
  obtain ⟨h1, h2⟩ := not_mem_of_widgetListeners_nil v h
  rw [subscribe_eq v h]
  simp only [unsubscribe, HTMLVideoElement.removeEventListener]
  rw [List.erase_append_right _ h1]
  have e1 : ([⟨"loadedmetadata", .handleLoadedMetadata⟩, ⟨"timeupdate", .handleTimeUpdate⟩] :
      List Listener).erase ⟨"loadedmetadata", .handleLoadedMetadata⟩ =
      [⟨"timeupdate", .handleTimeUpdate⟩] := by decide
  rw [e1, List.erase_append_right _ h2]
  have e2 : ([⟨"timeupdate", .handleTimeUpdate⟩] : List Listener).erase
      ⟨"timeupdate", .handleTimeUpdate⟩ = [] := by decide
  rw [e2, List.append_nil]

/-- The cleanup tests each ref before it uses it: with both refs unset it removes nothing. -/
theorem cleanup_of_refs_unset (s : State) (ho : s.originalVideoRef = none)
    (hc : s.compressedVideoRef = none) : cleanup s = s := by
  simp only [cleanup, ho, hc]

/-- With the refs still set, the cleanup removes what the effect registered: when no listener
of the component is registered on either element, `cleanup (effect s) = s`. -/
theorem cleanup_effect (s : State)
    (ho : ∀ v, s.originalVideoRef = some v → widgetListeners v = [])
    (hc : ∀ v, s.compressedVideoRef = some v → widgetListeners v = []) :
    cleanup (effect s) = s := by
  cases s with
  | mk sv d ip ss os cs o c =>
    cases o with
    | none =>
      cases c with
      | none => rfl
      | some c =>
        simp only [effect, cleanup, unsubscribe_subscribe c (hc c rfl)]
    | some o =>
      cases c with
      | none =>
        simp only [effect, cleanup, unsubscribe_subscribe o (ho o rfl)]
      | some c =>
        simp only [effect, cleanup, unsubscribe_subscribe o (ho o rfl),
          unsubscribe_subscribe c (hc c rfl)]

/-- The effect registers the two listeners on a present element that has none of them. -/
theorem effect_registers (s : State) (o c : HTMLVideoElement)
    (ho : s.originalVideoRef = some o) (hc : s.compressedVideoRef = some c)
    (hol : widgetListeners o = []) (hcl : widgetListeners c = []) :
    (effect s).originalVideoRef = some { o with listeners := o.listeners ++
      [⟨"loadedmetadata", .handleLoadedMetadata⟩, ⟨"timeupdate", .handleTimeUpdate⟩] } ∧
    (effect s).compressedVideoRef = some { c with listeners := c.listeners ++
      [⟨"loadedmetadata", .handleLoadedMetadata⟩, ⟨"timeupdate", .handleTimeUpdate⟩] } := by
  rw [← subscribe_eq o hol, ← subscribe_eq c hcl]
  simp only [effect, ho, hc, and_self]

/-- The unmount hands back the elements as they were attached: the cleanup finds both refs
unset and removes nothing. -/
theorem unmount_elements (s : State) :
    (unmount s).originalVideo = s.originalVideoRef ∧
    (unmount s).compressedVideo = s.compressedVideoRef ∧
    (unmount s).state = { s with originalVideoRef := none, compressedVideoRef := none } :=
  ⟨rfl, rfl,
    cleanup_of_refs_unset { s with originalVideoRef := none, compressedVideoRef := none }
      rfl rfl⟩

/-- C6 fails on the code: after a mount on two elements without listeners and an unmount, each
of the two elements still carries the metadata-ready and the time-advanced listener of the
component, because the cleanup reads the refs, which React has reset before it runs; run while
the refs are still set, the same cleanup removes all four listeners. -/
theorem unmount_leaves_listeners :
    sampleBound.originalVideoRef = some sampleLoaded ∧
    sampleBound.compressedVideoRef = some sampleLoaded ∧
    widgetListeners sampleLoaded = [] ∧
    (unmount (effect sampleBound)).originalVideo.map widgetListeners =
      some [⟨"loadedmetadata", .handleLoadedMetadata⟩, ⟨"timeupdate", .handleTimeUpdate⟩] ∧
    (unmount (effect sampleBound)).compressedVideo.map widgetListeners =
      some [⟨"loadedmetadata", .handleLoadedMetadata⟩, ⟨"timeupdate", .handleTimeUpdate⟩] ∧
    (unmount (effect sampleBound)).state.originalVideoRef = none ∧
    (unmount (effect sampleBound)).state.compressedVideoRef = none ∧
    cleanup (effect sampleBound) = sampleBound := by
  decide

/-! ## Invariants of the runs -/

theorem updateStats_duration (s : State) : (updateStats s).duration = s.duration := by
  unfold updateStats
  cases s.originalVideoRef <;> cases h : s.compressedVideoRef <;> simp only [h]

theorem handleTimeUpdate_duration (s : State) : (handleTimeUpdate s).duration = s.duration := by
  unfold handleTimeUpdate
  cases s.originalVideoRef with
  | none => rfl
  | some o => simp only [updateStats_duration]

theorem handleSliderChange_duration (t : ℚ) (s : State) :
    (handleSliderChange t s).state.duration = s.duration := by
  rw [handleSliderChange_eq s t]
  rfl

theorem handlePausePlay_duration (s : State) :
    (handlePausePlay s).state.duration = s.duration := by
  cases ho : s.originalVideoRef with
  | none => simp only [handlePausePlay, ho, Outcome.state]
  | some o =>
    cases hc : s.compressedVideoRef <;> cases hp : o.paused <;>
      simp [handlePausePlay, ho, hc, hp, Outcome.state]

theorem effect_duration (s : State) : (effect s).duration = s.duration := by
  unfold effect
  cases s.originalVideoRef <;> cases h : s.compressedVideoRef <;> simp only [h]

theorem step_duration (s t : State) (h : Step s t) : t.duration = s.duration := by
  cases h with
  | mount o c _ _ => rw [effect_duration]
  | mediaOriginal v w _ => rfl
  | mediaCompressed v w _ => rfl
  | loadedMetadata v _ _ => exact updateStats_duration s
  | timeUpdate v _ _ => exact handleTimeUpdate_duration s
  | seek newTime => exact handleSliderChange_duration newTime s
  | toggle => exact handlePausePlay_duration s
  | showStats b => rfl

theorem sampleAfterEvent_reachable : Reachable sampleAfterEvent := by
  have s1 : Step State.init sampleMounted :=
    Step.mount State.init sampleUnloaded sampleUnloaded rfl rfl
  have s2 : Step sampleMounted sampleOriginalReady :=
    Step.mediaOriginal sampleMounted (subscribe sampleUnloaded) sampleLoaded rfl
  have s3 : Step sampleOriginalReady sampleAfterEvent :=
    Step.loadedMetadata sampleOriginalReady (mediaUpdate (subscribe sampleUnloaded) sampleLoaded)
      (Or.inl rfl) (by decide)
  exact ((Relation.ReflTransGen.single s1).tail s2).tail s3

/-- C10: in every state reachable from the initial state by mounting, media changes,
metadata-ready and time-advanced events, seeks, play/pause toggles and stats toggles, the
state cell `duration` is still `0`, and so is the `max` of the range input. -/
theorem duration_invariant (s : State) (h : Reachable s) :
    s.duration = 0 ∧ (render s).slider.max = 0 := by
  have hd : s.duration = 0 := by
    induction h with
    | refl => rfl
    | tail _ hstep ih => rw [step_duration _ _ hstep, ih]
  exact ⟨hd, hd⟩

/-- Witness of C10 at the state reached by a mount, the arrival of the metadata of the
original element (ten seconds long) and its metadata-ready event. -/
theorem duration_invariant_witness :
    Reachable sampleAfterEvent ∧ sampleAfterEvent.duration = 0 ∧
    (render sampleAfterEvent).slider.max = 0 :=
  ⟨sampleAfterEvent_reachable, duration_invariant sampleAfterEvent sampleAfterEvent_reachable⟩

/-- C7 fails on the code: after a mount on two elements without metadata and the arrival of the
metadata of the original element, both panels still show the placeholders; once the
metadata-ready event of the original element has been handled, the compressed element still
has width and height `0` and duration `NaN`, and its panel shows `0x0`, `NaN:NaN`, `0:00`,
`H.264/AVC` and `Paused`, of which only `0:00` is a placeholder. -/
theorem unloaded_binding_rendered :
    Reachable sampleAfterEvent ∧
    (render sampleOriginalReady).panels.map Prod.snd =
      some { resolution := "Loading...", duration := "Loading...", currentTime := "0:00",
             codec := "N/A", playbackState := "N/A" } ∧
    sampleAfterEvent.compressedVideoRef = some (subscribe sampleUnloaded) ∧
    (subscribe sampleUnloaded).videoWidth = 0 ∧ (subscribe sampleUnloaded).videoHeight = 0 ∧
    (subscribe sampleUnloaded).duration = .nan ∧
    (render sampleAfterEvent).panels.map Prod.snd =
      some { resolution := "0x0", duration := "NaN:NaN", currentTime := "0:00",
             codec := "H.264/AVC", playbackState := "Paused" } := by
  refine ⟨sampleAfterEvent_reachable, ?_, ?_, ?_, ?_, ?_, ?_⟩ <;> decide!

end VideoPlayer
